import Mathlib

/-!
Verification development for the Poll-System Flask application (`src/app.py`).

The relational store (SQLite through SQLAlchemy) is embedded shallowly: each
table is a Lean list of rows, and each Flask handler that the claims mention
becomes a pure Lean function from a database state (plus request data) to a
new database state and a response.  `datetime` values are embedded as integers
(`Time`), since only their ordering matters to the code under scrutiny.
-/

namespace PollSystem

/-- Timestamps: `datetime` values compared with `<` in the source. -/
abbrev Time := Int

/-- Row of the `user` table (`class User`, src/app.py lines 20-24).
The password hash is an opaque string produced by the external
`generate_password_hash` capability. -/
structure User where
  id : Nat
  username : String
  password : String
  is_admin : Bool
deriving Repr, DecidableEq

/-- Row of the `poll` table (`class Poll`, src/app.py lines 26-32). -/
structure Poll where
  id : Nat
  question : String
  created_at : Time
  expiry : Option Time
  active : Bool
deriving Repr, DecidableEq

/-- Row of the `option` table (`class Option`, src/app.py lines 34-38).
Named `PollOption` because `Option` is taken by Lean's core type. -/
structure PollOption where
  id : Nat
  text : String
  poll_id : Nat
deriving Repr, DecidableEq

/-- Row of the `vote` table (`class Vote`, src/app.py lines 40-47), carrying
the `uix_user_poll` unique constraint on `(user_id, poll_id)` - enforced in
the embedding by `commitVote` below, exactly as SQLite enforces it at commit
time. -/
structure Vote where
  id : Nat
  user_id : Nat
  poll_id : Nat
  option_id : Nat
  created_at : Time
deriving Repr, DecidableEq

/-- The database state: the four tables plus the autoincrement counters that
SQLite keeps per table to assign fresh primary keys. -/
structure DB where
  users : List User
  polls : List Poll
  options : List PollOption
  votes : List Vote
  nextUserId : Nat
  nextPollId : Nat
  nextOptionId : Nat
  nextVoteId : Nat
deriving Repr, DecidableEq

/-- `Poll.query.get(pid)` / `Poll.query.get_or_404(pid)`: primary-key lookup. -/
def getPoll (db : DB) (pid : Nat) : Option Poll :=
  db.polls.find? (fun p => p.id == pid)

/-- `Option.query.get(i)` where `i` is the (possibly negative) integer the
handler built from the form field; no negative primary keys exist. -/
def getOptionByInt (db : DB) (i : Int) : Option PollOption :=
  db.options.find? (fun o => (o.id : Int) == i)

/-- `poll.options`: the relationship rows, i.e. all options whose `poll_id`
is the poll's id, in insertion (= primary key) order. -/
def pollOptions (db : DB) (pid : Nat) : List PollOption :=
  db.options.filter (fun o => o.poll_id == pid)

/-- `Vote.query.filter_by(option_id=o.id).count()` (src/app.py lines 187, 202). -/
def countVotesForOption (db : DB) (oid : Nat) : Nat :=
  (db.votes.filter (fun v => v.option_id == oid)).length

/-- `Vote.query.filter_by(user_id=u, poll_id=p).first() is not None`
(src/app.py line 220), and also the check the `uix_user_poll` unique
constraint performs at insert time. -/
def hasVote (db : DB) (u p : Nat) : Bool :=
  db.votes.any (fun v => v.user_id == u && v.poll_id == p)

/-- Python's `str.strip()`: drop whitespace from both ends.  (Defined via
`List.dropWhile` so that it evaluates by kernel reduction; the unicode
whitespace classes beyond ASCII are immaterial here.) -/
def pyStrip (s : String) : String :=
  ⟨((s.data.dropWhile Char.isWhitespace).reverse.dropWhile Char.isWhitespace).reverse⟩

/-! ### Python `int()` on strings

`poll_detail` runs `int(option_id)` on the raw form value (src/app.py
line 232) with no exception handling around it.  We embed CPython's `int`
constructor on `str`: optional surrounding whitespace, an optional single
sign, then a nonempty digit run in which single underscores may separate
digits; anything else raises `ValueError`. -/

/-- Continue a digit run: digits, optionally separated by single underscores. -/
def pyDigitsAux : Nat → List Char → Option Nat
  | acc, [] => some acc
  | acc, '_' :: c :: cs =>
      if c.isDigit then pyDigitsAux (10 * acc + (c.toNat - 48)) cs else none
  | acc, c :: cs =>
      if c.isDigit then pyDigitsAux (10 * acc + (c.toNat - 48)) cs else none

/-- A nonempty Python digit run (`digit (["_"] digit)*`). -/
def pyDigits : List Char → Option Nat
  | [] => none
  | c :: cs => if c.isDigit then pyDigitsAux (c.toNat - 48) cs else none

/-- Sign handling of `int(str)`. -/
def pyIntOfChars : List Char → Option Int
  | [] => none
  | '+' :: cs => (pyDigits cs).map (fun n => (n : Int))
  | '-' :: cs => (pyDigits cs).map (fun n => -(n : Int))
  | cs => (pyDigits cs).map (fun n => (n : Int))

/-- CPython `int(s)` for `s : str`: `some n` on success, `none` when it
raises `ValueError`. -/
def pyInt (s : String) : Option Int :=
  pyIntOfChars (pyStrip s).data

/-! ### The vote handler, `poll_detail` (POST branch), src/app.py 210-246 -/

/-- The derived expiry condition `poll.expiry is not None and poll.expiry < now`
(src/app.py line 215; the index template applies the same comparison to the
`now` it receives). -/
def isExpired (p : Poll) (now : Time) : Bool :=
  match p.expiry with
  | some e => decide (e < now)
  | none => false

/-- The response the POST branch of `poll_detail` produces.  Each flash
message in the source is carried verbatim, and `raisedValueError` is the
uncaught exception escaping `int(option_id)`. -/
inductive VoteResponse
  | notFound
  | redirectIndex (msg : String)
  | redirectPoll (msg : String)
  | raisedValueError
deriving Repr, DecidableEq

/-- What can make `db.session.commit()` raise inside the `try` block:
the `uix_user_poll` unique-constraint violation, or any other storage
failure (modelled by the injected `storage` fault). -/
inductive CommitErr
  | uniqueViolation
  | storage
deriving Repr, DecidableEq

/-- `db.session.add(vote); db.session.commit()`: the storage layer assigns a
fresh primary key and enforces `uix_user_poll` atomically at commit time
against the committed state `db` - not against whatever snapshot the handler
read earlier.  `storageFail` injects an unrelated storage failure. -/
def commitVote (db : DB) (uid pid oid : Nat) (now : Time) (storageFail : Bool) :
    Except CommitErr DB :=
  if hasVote db uid pid then .error .uniqueViolation
  else if storageFail then .error .storage
  else .ok { db with
    votes := db.votes ++ [⟨db.nextVoteId, uid, pid, oid, now⟩],
    nextVoteId := db.nextVoteId + 1 }

/-- The POST branch of `poll_detail` (src/app.py lines 210-246), as one pure
function.  `snap` is the state the handler's reads observe (its queries for
the poll, the existing vote and the option); `db` is the state the final
`commit` lands on.  A sequential request has `snap = db`; a concurrent
duplicate-vote race is the case where `db` has gained votes that `snap`
does not show.  On every path that does not commit, the returned state is
`db` unchanged (the handler only reads, and `rollback` undoes the one
staged insert). -/
def poll_detail_post (snap db : DB) (uid pid : Nat) (field : Option String)
    (now : Time) (storageFail : Bool) : DB × VoteResponse :=
  match getPoll snap pid with
  | none => (db, .notFound)
  | some poll =>
    let expired := isExpired poll now
    let existing := hasVote snap uid poll.id
    if expired || !poll.active then
      (db, .redirectIndex "This poll is closed; you cannot vote.")
    else if existing then
      (db, .redirectIndex "You have already voted in this poll.")
    else
      match field with
      | none => (db, .redirectPoll "Choose an option.")
      | some s =>
        if s == "" then (db, .redirectPoll "Choose an option.")
        else
          match pyInt s with
          | none => (db, .raisedValueError)
          | some i =>
            match getOptionByInt snap i with
            | none => (db, .redirectPoll "Invalid option selected.")
            | some opt =>
              if opt.poll_id != poll.id then
                (db, .redirectPoll "Invalid option selected.")
              else
                match commitVote db uid poll.id opt.id now storageFail with
                | .error _ =>
                    (db, .redirectIndex "Could not record vote. You may have already voted.")
                | .ok db' => (db', .redirectIndex "Vote recorded. Thank you!")

/-- Abbreviations for the responses the error-taxonomy claims talk about. -/
def pollClosedResp : VoteResponse :=
  .redirectIndex "This poll is closed; you cannot vote."

def duplicateVoteResp : VoteResponse :=
  .redirectIndex "You have already voted in this poll."

def commitFailResp : VoteResponse :=
  .redirectIndex "Could not record vote. You may have already voted."

def invalidOptionResp : VoteResponse :=
  .redirectPoll "Invalid option selected."

def chooseOptionResp : VoteResponse :=
  .redirectPoll "Choose an option."

def votedResp : VoteResponse :=
  .redirectIndex "Vote recorded. Thank you!"

/-! ### Poll creation, `create_poll` (POST branch), src/app.py 134-161 -/

/-- Response of the POST branch of `create_poll`: a redirect back to the
creation form with a warning flash, or to the admin dashboard on success. -/
inductive CreateResponse
  | redirectCreate (msg : String)
  | redirectAdmin (msg : String)
deriving Repr, DecidableEq

/-- The loop `for opt_text in options: db.session.add(Option(...))` followed
by `commit`: each option row gets the next fresh primary key. -/
def addOptions (db : DB) (pid : Nat) (texts : List String) : DB :=
  match texts with
  | [] => db
  | t :: rest =>
      addOptions
        { db with
          options := db.options ++ [⟨db.nextOptionId, t, pid⟩],
          nextOptionId := db.nextOptionId + 1 }
        pid rest

/-- `db.session.add(poll); commit; for opt_text in options: add(Option(...)); commit`
(src/app.py lines 153-158). -/
def insertPollWithOptions (db : DB) (question : String) (expiry : Option Time)
    (active : Bool) (now : Time) (texts : List String) : DB :=
  let pid := db.nextPollId
  addOptions
    { db with
      polls := db.polls ++ [⟨pid, question, now, expiry, active⟩],
      nextPollId := pid + 1 }
    pid texts

/-- The POST branch of `create_poll` (src/app.py lines 137-160).  Form data:
`question_field` is `request.form.get("question","")`, `options_field` is
`request.form.getlist("options")`, `expiry_field` and `active_field` are the
raw optional form values.  Parsing of ISO-8601 date-times
(`datetime.fromisoformat`) is the external library capability `parseIso`:
`none` models the exception the source catches. -/
def create_poll_post (parseIso : String → Option Time) (db : DB)
    (question_field : Option String) (options_field : List String)
    (expiry_field : Option String) (active_field : Option String)
    (now : Time) : DB × CreateResponse :=
  let question := pyStrip (question_field.getD "")
  let options := (options_field.map (fun o => pyStrip o)).filter (fun o => !(o == ""))
  let expiry_raw := pyStrip (expiry_field.getD "")
  let active := (active_field.getD "on") == "on"
  if question == "" || options.length < 2 then
    (db, .redirectCreate "Provide a question and at least two options.")
  else if expiry_raw == "" then
    (insertPollWithOptions db question none active now options,
     .redirectAdmin "Poll created.")
  else
    match parseIso expiry_raw with
    | none => (db, .redirectCreate "Invalid expiry format. Use the datetime picker.")
    | some e =>
        (insertPollWithOptions db question (some e) active now options,
         .redirectAdmin "Poll created.")

/-- `create_poll` succeeded. -/
def pollCreatedResp : CreateResponse := .redirectAdmin "Poll created."

/-! ### Admin toggle and delete, src/app.py 163-179 -/

/-- `toggle_poll` (src/app.py lines 163-170): `get_or_404` then flip
`poll.active`.  When the poll is absent the handler 404s and the state is
unchanged, which the row-wise map also expresses. -/
def toggle_poll (db : DB) (pid : Nat) : DB :=
  { db with
    polls := db.polls.map (fun p => if p.id == pid then { p with active := !p.active } else p) }

/-- `delete_poll` (src/app.py lines 172-179): `db.session.delete(poll)` with
the declared cascades - `Poll.options` cascades to the poll's option rows,
and each deleted `Option.votes` cascades to the votes referencing that
option (src/app.py lines 32 and 38). -/
def delete_poll (db : DB) (pid : Nat) : DB :=
  if (getPoll db pid).isSome then
    { db with
      polls := db.polls.filter (fun p => !(p.id == pid)),
      options := db.options.filter (fun o => !(o.poll_id == pid)),
      votes := db.votes.filter
        (fun v => !((db.options.filter (fun o => o.poll_id == pid)).any
          (fun o => o.id == v.option_id))) }
  else db

/-! ### Registration, src/app.py 78-95 (POST branch) -/

/-- The POST branch of `register`: trims the username, rejects empty fields
and taken usernames, otherwise inserts a user with the externally produced
password hash `hashed` and `is_admin=False`. -/
def register_post (db : DB) (username_raw password hashed : String) : DB :=
  let username := pyStrip username_raw
  if username == "" || password == "" then db
  else if db.users.any (fun u => u.username == username) then db
  else
    { db with
      users := db.users ++ [⟨db.nextUserId, username, hashed, false⟩],
      nextUserId := db.nextUserId + 1 }

/-! ### Listings, src/app.py 119-132 -/

/-- `order_by(Poll.created_at.desc())`: newest first. -/
def sortByCreatedDesc (ps : List Poll) : List Poll :=
  ps.mergeSort (fun a b => decide (b.created_at ≤ a.created_at))

/-- Modelled from the spec: the index template (`templates/index.html`, not
present under src/) receives the active polls together with `now`
(src/app.py line 124-125, "filter out expired on template side by passing
now") and, per the spec's interface contract "`GET /` - list active,
non-expired polls for voting", hides the polls whose expiry has passed. -/
def templateFilterExpired (now : Time) (ps : List Poll) : List Poll :=
  ps.filter (fun p => !(isExpired p now))

/-- `index` (src/app.py lines 119-125) composed with the template's expiry
filtering: the list of polls the public listing shows. -/
def indexListing (db : DB) (now : Time) : List Poll :=
  templateFilterExpired now (sortByCreatedDesc (db.polls.filter (fun p => p.active)))

/-- `admin_dashboard` (src/app.py lines 128-132): all polls, newest first. -/
def adminListing (db : DB) : List Poll :=
  sortByCreatedDesc db.polls

/-! ### Results aggregation, `admin_results`, src/app.py 181-191 -/

/-- `votes = [Vote.query.filter_by(option_id=o.id).count() for o in options]`. -/
def resultsVotes (db : DB) (pid : Nat) : List Nat :=
  (pollOptions db pid).map (fun o => countVotesForOption db o.id)

/-- `total = sum(votes) or 0` - Python's `or` yields the right operand when
the sum is falsy (zero). -/
def resultsTotal (db : DB) (pid : Nat) : Nat :=
  let s := (resultsVotes db pid).sum
  if s == 0 then 0 else s

/-- `percentages = [ (v/total*100) if total>0 else 0 for v in votes ]`,
with Python's float division embedded as exact rational division. -/
def resultsPercentages (db : DB) (pid : Nat) : List ℚ :=
  let total := resultsTotal db pid
  (resultsVotes db pid).map
    (fun v : Nat => if total > 0 then (v : ℚ) / (total : ℚ) * 100 else 0)

/-! ### CSV export, `export_poll_csv`, src/app.py 193-207 -/

/-- The CSV content as rows of cells (the `csv.writer` serialisation itself
is the external library).  `none` is the `get_or_404` miss. -/
def export_poll_csv (db : DB) (pid : Nat) : Option (List (List String)) :=
  match getPoll db pid with
  | none => none
  | some poll =>
      some (["poll_id", "poll_question", "option_id", "option_text", "votes"] ::
        (pollOptions db poll.id).map
          (fun opt => [toString poll.id, poll.question, toString opt.id, opt.text,
                       toString (countVotesForOption db opt.id)]))

/-- The option rows the creation loop inserts: consecutive fresh primary
keys starting at `start`, all owned by poll `pid`, one per submitted text. -/
def optionRows (start pid : Nat) : List String → List PollOption
  | [] => []
  | t :: rest => ⟨start, t, pid⟩ :: optionRows (start + 1) pid rest

/-! ### The reachable database states

`db.create_all()` followed by `seed_admin()` (src/app.py lines 266-277)
yields the initial state; each handler invocation is one step.  In the
`vote` step the pre-commit reads may observe a stale vote table
(`staleVotes`) - this is exactly the concurrent duplicate-vote race the
spec singles out: two interleaved requests each read a snapshot that does
not yet show the other's insert, while the commit itself always lands on
the current state. -/

/-- The state after `db.create_all()` and `seed_admin()`: one admin user,
whose password hash is the value the external `generate_password_hash`
returned. -/
def db0 : DB :=
  { users := [⟨1, "admin", "pbkdf2-hash-of-admin123", true⟩],
    polls := [], options := [], votes := [],
    nextUserId := 2, nextPollId := 1, nextOptionId := 1, nextVoteId := 1 }

/-- One handler invocation.  `parseIso` in `create` is the external
ISO-8601 parser; `hashed` in `register` the external password hasher's
output; `staleVotes` in `vote` the possibly stale vote table the handler's
reads observe; `sf` injects a storage failure at commit time. -/
inductive Step : DB → DB → Prop
  | register (db : DB) (u p hashed : String) :
      Step db (register_post db u p hashed)
  | create (db : DB) (parseIso : String → Option Time)
      (qf : Option String) (of : List String) (ef af : Option String) (now : Time) :
      Step db (create_poll_post parseIso db qf of ef af now).1
  | toggle (db : DB) (pid : Nat) : Step db (toggle_poll db pid)
  | delete (db : DB) (pid : Nat) : Step db (delete_poll db pid)
  | vote (db : DB) (staleVotes : List Vote) (uid pid : Nat)
      (field : Option String) (now : Time) (sf : Bool) :
      Step db (poll_detail_post { db with votes := staleVotes } db uid pid field now sf).1

/-- A database state the application can actually be in. -/
def Reachable (db : DB) : Prop :=
  Relation.ReflTransGen Step db0 db

/-- Number of votes by user `u` on poll `p` - the quantity the
`uix_user_poll` constraint bounds. -/
def votesBy (db : DB) (u p : Nat) : Nat :=
  (db.votes.filter (fun v => v.user_id == u && v.poll_id == p)).length

/-- The relational invariants of a database state:
uniqueness of `(user_id, poll_id)` among votes, option/poll consistency of
every vote, global uniqueness of option primary keys, and freshness of the
autoincrement counters. -/
structure Inv (db : DB) : Prop where
  uniq : ∀ u p, votesBy db u p ≤ 1
  belongs : ∀ v ∈ db.votes, ∃ o ∈ db.options, o.id = v.option_id ∧ o.poll_id = v.poll_id
  optNodup : (db.options.map PollOption.id).Nodup
  optLt : ∀ o ∈ db.options, o.id < db.nextOptionId
  optPollLt : ∀ o ∈ db.options, o.poll_id < db.nextPollId
  pollLt : ∀ p ∈ db.polls, p.id < db.nextPollId

/-! ### Concrete states used to exercise the theorems -/

/-- A state with one open poll (id 1, options 1 "Red" and 2 "Blue"), one
closed poll (id 2, inactive, option 3), and a single vote by user 1 on
poll 1 for option 1. -/
def dbEx : DB :=
  { users := [⟨1, "admin", "pbkdf2-hash-of-admin123", true⟩, ⟨2, "alice", "h", false⟩],
    polls := [⟨1, "Best color?", 0, none, true⟩, ⟨2, "Closed one", 0, none, false⟩],
    options := [⟨1, "Red", 1⟩, ⟨2, "Blue", 1⟩, ⟨3, "X", 2⟩],
    votes := [⟨1, 1, 1, 1, 0⟩],
    nextUserId := 3, nextPollId := 3, nextOptionId := 4, nextVoteId := 2 }

/-! ## Lemmas about the vote handler -/

/-- Exhaustive shape of a `poll_detail` POST: either nothing is committed
and the response is not the success flash, or the poll was found, a valid
option of that poll was chosen, no vote by this user existed in the
committed state, and exactly that one row is appended. -/
lemma poll_detail_post_shape (snap db : DB) (uid pid : Nat) (field : Option String)
    (now : Time) (sf : Bool) :
    ((poll_detail_post snap db uid pid field now sf).1 = db ∧
     (poll_detail_post snap db uid pid field now sf).2 ≠ votedResp) ∨
    (∃ poll opt, getPoll snap pid = some poll ∧ opt ∈ snap.options ∧
      opt.poll_id = poll.id ∧ hasVote db uid poll.id = false ∧
      poll_detail_post snap db uid pid field now sf =
        ({ db with votes := db.votes ++ [⟨db.nextVoteId, uid, poll.id, opt.id, now⟩],
                   nextVoteId := db.nextVoteId + 1 }, votedResp)) := by
  cases hfind : getPoll snap pid with
  | none => left; simp [poll_detail_post, hfind, votedResp]
  | some poll =>
    by_cases hclosed : (isExpired poll now || !poll.active) = true
    · left; simp [poll_detail_post, hfind, hclosed, votedResp, pollClosedResp]
    · rw [Bool.not_eq_true] at hclosed
      by_cases hex : hasVote snap uid poll.id = true
      · left; simp [poll_detail_post, hfind, hclosed, hex, votedResp]
      · rw [Bool.not_eq_true] at hex
        match field with
        | none => left; simp [poll_detail_post, hfind, hclosed, hex, votedResp]
        | some s =>
          by_cases hs : s == ""
          · left; simp [poll_detail_post, hfind, hclosed, hex, hs, votedResp]
          · rw [Bool.not_eq_true] at hs
            cases hpy : pyInt s with
            | none => left; simp [poll_detail_post, hfind, hclosed, hex, hs, hpy, votedResp]
            | some i =>
              cases hopt : getOptionByInt snap i with
              | none => left; simp [poll_detail_post, hfind, hclosed, hex, hs, hpy, hopt, votedResp]
              | some opt =>
                by_cases hbad : (opt.poll_id != poll.id) = true
                · left; simp [poll_detail_post, hfind, hclosed, hex, hs, hpy, hopt, hbad, votedResp]
                · rw [Bool.not_eq_true] at hbad
                  have hpeq : opt.poll_id = poll.id := by simpa using hbad
                  cases hv : hasVote db uid poll.id with
                  | true =>
                    left
                    simp [poll_detail_post, hfind, hclosed, hex, hs, hpy, hopt, hbad,
                          commitVote, hv, votedResp, commitFailResp]
                  | false =>
                    cases sf with
                    | true =>
                      left
                      simp [poll_detail_post, hfind, hclosed, hex, hs, hpy, hopt, hbad,
                            commitVote, hv, votedResp]
                    | false =>
                      right
                      refine ⟨poll, opt, rfl, List.mem_of_find?_eq_some hopt, hpeq, hv, ?_⟩
                      simp [poll_detail_post, hfind, hclosed, hex, hs, hpy, hopt, hbad,
                            commitVote, hv, votedResp]

/-! ## C2: closed polls reject votes -/

/-- C2: for every vote-cast request (any user, any option value, even with
an injected storage fault) on an existing poll whose `active` flag is false
or whose expiry lies strictly before the current time, the handler answers
with the PollClosed flash and redirect, and the database is returned
unchanged - no `Vote` row is created. -/
theorem castVote_pollClosed_of_inactive_or_expired (db : DB) (uid pid : Nat)
    (field : Option String) (now : Time) (sf : Bool) (poll : Poll)
    (hfind : getPoll db pid = some poll)
    (hclosed : poll.active = false ∨ ∃ e, poll.expiry = some e ∧ e < now) :
    poll_detail_post db db uid pid field now sf = (db, pollClosedResp) := by
  have hc : (isExpired poll now || !poll.active) = true := by
    rcases hclosed with h | ⟨e, he, hlt⟩
    · simp [h]
    · simp [isExpired, he, hlt]
  simp [poll_detail_post, hfind, hc, pollClosedResp]

/-- Witness for C2: voting on the inactive poll 2 of `dbEx` is refused as
closed and changes nothing. -/
theorem castVote_pollClosed_witness :
    poll_detail_post dbEx dbEx 2 2 (some "3") 0 false = (dbEx, pollClosedResp) :=
  castVote_pollClosed_of_inactive_or_expired dbEx 2 2 (some "3") 0 false
    ⟨2, "Closed one", 0, none, false⟩ rfl (Or.inl rfl)

/-! ## C3: the order in which failure causes are determined -/

/-- Counterexample to C3: in `dbEx`, option 1 exists but belongs to poll 1,
and poll 2 is closed.  Voting on poll 2 with option 1 is a request "whose
chosen option exists but belongs to a different poll", yet the handler
answers PollClosed, not InvalidOption: the code checks the closed state
before it ever looks at the option, while the claim puts option-ownership
checks first. -/
theorem castVote_order_counterexample :
    poll_detail_post dbEx dbEx 2 2 (some "1") 0 false = (dbEx, pollClosedResp) ∧
    pollClosedResp ≠ invalidOptionResp := by
  exact ⟨by decide, by decide⟩

/-- C3 (amended): the POST branch of `poll_detail` determines its failure
cause in the order of the code, not of the claim: NotFound when the poll
does not exist; then PollClosed; then DuplicateVote; then the
missing-option redirect; and only then the option checks, where a
nonexistent option and an option of a different poll are both surfaced as
InvalidOption.  In particular a wrong-poll option yields InvalidOption
only once the poll is open for this user. -/
theorem castVote_failure_order (db : DB) (uid pid : Nat) (field : Option String)
    (now : Time) (sf : Bool) :
    (getPoll db pid = none →
      poll_detail_post db db uid pid field now sf = (db, .notFound)) ∧
    (∀ poll, getPoll db pid = some poll →
      ((isExpired poll now || !poll.active) = true →
        poll_detail_post db db uid pid field now sf = (db, pollClosedResp)) ∧
      ((isExpired poll now || !poll.active) = false →
        (hasVote db uid poll.id = true →
          poll_detail_post db db uid pid field now sf = (db, duplicateVoteResp)) ∧
        (hasVote db uid poll.id = false →
          ((field = none ∨ field = some "") →
            poll_detail_post db db uid pid field now sf = (db, chooseOptionResp)) ∧
          (∀ s i, field = some s → pyInt s = some i →
            (getOptionByInt db i = none →
              poll_detail_post db db uid pid field now sf = (db, invalidOptionResp)) ∧
            (∀ opt, getOptionByInt db i = some opt → opt.poll_id ≠ poll.id →
              poll_detail_post db db uid pid field now sf = (db, invalidOptionResp)))))) := by
  refine ⟨fun h => by simp [poll_detail_post, h], fun poll hfind => ⟨?_, ?_⟩⟩
  · intro hc
    simp [poll_detail_post, hfind, hc, pollClosedResp]
  · intro hc
    refine ⟨?_, ?_⟩
    · intro hex
      simp [poll_detail_post, hfind, hc, hex, duplicateVoteResp]
    · intro hex
      refine ⟨?_, ?_⟩
      · rintro (rfl | rfl) <;> simp [poll_detail_post, hfind, hc, hex, chooseOptionResp]
      · rintro s i rfl hpy
        have hs : (s == "") = false := by
          by_cases h : s = ""
          · subst h
            rw [show pyInt "" = none from rfl] at hpy
            simp at hpy
          · simpa using h
        refine ⟨?_, ?_⟩
        · intro hopt
          simp [poll_detail_post, hfind, hc, hex, hs, hpy, hopt, invalidOptionResp]
        · intro opt hopt hne
          have hbad : (opt.poll_id != poll.id) = true := by simpa using hne
          simp [poll_detail_post, hfind, hc, hex, hs, hpy, hopt, hbad, invalidOptionResp]

/-- Witness for the amended C3: on the open poll 1 of `dbEx`, user 2 (who
has not voted) choosing option 3 - which belongs to poll 2 - gets the
InvalidOption flash. -/
theorem castVote_failure_order_witness :
    poll_detail_post dbEx dbEx 2 1 (some "3") 0 false = (dbEx, invalidOptionResp) :=
  ((((((castVote_failure_order dbEx 2 1 (some "3") 0 false).2
      ⟨1, "Best color?", 0, none, true⟩ rfl).2 rfl).2 rfl).2
      "3" 3 rfl rfl).2 ⟨3, "X", 2⟩ rfl (by decide))

/-! ## C4: atomicity of a vote-cast request -/

/-- C4: every POST of `poll_detail` is atomic.  When the response is the
success flash, the users, polls and options tables are untouched and the
votes table has gained exactly one row; on every other response - closed
poll, duplicate, missing/invalid option, uncaught `int()` error, or an
injected storage failure at commit (`sf = true`) - the returned state is
the input state, byte for byte. -/
theorem castVote_atomic (db : DB) (uid pid : Nat) (field : Option String)
    (now : Time) (sf : Bool) :
    ((poll_detail_post db db uid pid field now sf).2 = votedResp →
      (poll_detail_post db db uid pid field now sf).1.users = db.users ∧
      (poll_detail_post db db uid pid field now sf).1.polls = db.polls ∧
      (poll_detail_post db db uid pid field now sf).1.options = db.options ∧
      ∃ v, (poll_detail_post db db uid pid field now sf).1.votes = db.votes ++ [v]) ∧
    ((poll_detail_post db db uid pid field now sf).2 ≠ votedResp →
      (poll_detail_post db db uid pid field now sf).1 = db) := by
  rcases poll_detail_post_shape db db uid pid field now sf with
    ⟨h1, h2⟩ | ⟨poll, opt, _, _, _, _, heq⟩
  · exact ⟨fun hv => absurd hv h2, fun _ => h1⟩
  · constructor
    · intro _
      rw [heq]
      exact ⟨rfl, rfl, rfl, ⟨_, rfl⟩⟩
    · intro hne
      exfalso
      apply hne
      rw [heq]

/-- Witness for C4: in `dbEx`, a successful vote by user 2 on poll 1 adds
one row and nothing else, and a failing vote on the closed poll 2 leaves
the state unchanged. -/
theorem castVote_atomic_witness :
    ((poll_detail_post dbEx dbEx 2 1 (some "2") 0 false).1.users = dbEx.users ∧
     (poll_detail_post dbEx dbEx 2 1 (some "2") 0 false).1.polls = dbEx.polls ∧
     (poll_detail_post dbEx dbEx 2 1 (some "2") 0 false).1.options = dbEx.options ∧
     ∃ v, (poll_detail_post dbEx dbEx 2 1 (some "2") 0 false).1.votes = dbEx.votes ++ [v]) ∧
    (poll_detail_post dbEx dbEx 2 2 (some "3") 0 false).1 = dbEx :=
  ⟨(castVote_atomic dbEx 2 1 (some "2") 0 false).1 (by decide),
   (castVote_atomic dbEx 2 2 (some "3") 0 false).2 (by decide)⟩

/-! ## C10: handling of the `option` form field -/

/-- Counterexample to C10: on the open poll 1 of `dbEx`, user 2 submits
`option=abc`.  The claim says the handler is total for every string value
of the field, but `int("abc")` raises `ValueError` outside the handler's
only `try` block, so no response is returned at all (Flask turns the
escaped exception into a 500). -/
theorem poll_detail_raises_counterexample :
    poll_detail_post dbEx dbEx 2 1 (some "abc") 0 false
      = (dbEx, VoteResponse.raisedValueError) := by
  decide

/-- C10 (amended): a POST with an absent or empty `option` field creates no
vote and redirects back to the poll page, provided the request gets past
the earlier checks (existing open poll, no prior vote by this user) - a
closed poll or a duplicate redirects to the index instead; and the handler
returns a response exactly when `int()` does not raise: the uncaught
`ValueError` escapes precisely when an existing open poll and a fresh user
reach the conversion of a nonempty `option` value that is not a valid
Python integer literal. -/
theorem poll_detail_option_field_handling (db : DB) (uid pid : Nat)
    (field : Option String) (now : Time) (sf : Bool) :
    ((poll_detail_post db db uid pid field now sf).2 = VoteResponse.raisedValueError ↔
      ∃ poll s, getPoll db pid = some poll ∧
        (isExpired poll now || !poll.active) = false ∧
        hasVote db uid poll.id = false ∧
        field = some s ∧ (s == "") = false ∧ pyInt s = none) ∧
    (∀ poll, getPoll db pid = some poll →
      (isExpired poll now || !poll.active) = false →
      hasVote db uid poll.id = false →
      (field = none ∨ field = some "") →
      poll_detail_post db db uid pid field now sf = (db, chooseOptionResp)) := by
  constructor
  · constructor
    · intro hr
      cases hfind : getPoll db pid with
      | none => simp [poll_detail_post, hfind] at hr
      | some poll =>
        by_cases hc : (isExpired poll now || !poll.active) = true
        · simp [poll_detail_post, hfind, hc] at hr
        · rw [Bool.not_eq_true] at hc
          cases hex : hasVote db uid poll.id with
          | true => simp [poll_detail_post, hfind, hc, hex] at hr
          | false =>
            match field with
            | none => simp [poll_detail_post, hfind, hc, hex] at hr
            | some s =>
              cases hs : (s == "") with
              | true => simp [poll_detail_post, hfind, hc, hex, hs] at hr
              | false =>
                cases hpy : pyInt s with
                | none => exact ⟨poll, s, rfl, hc, hex, rfl, hs, hpy⟩
                | some i =>
                  cases hopt : getOptionByInt db i with
                  | none => simp [poll_detail_post, hfind, hc, hex, hs, hpy, hopt] at hr
                  | some opt =>
                    by_cases hbad : (opt.poll_id != poll.id) = true
                    · simp [poll_detail_post, hfind, hc, hex, hs, hpy, hopt, hbad] at hr
                    · rw [Bool.not_eq_true] at hbad
                      rcases hcv : commitVote db uid poll.id opt.id now sf with e | db'
                      · simp [poll_detail_post, hfind, hc, hex, hs, hpy, hopt, hbad, hcv] at hr
                      · simp [poll_detail_post, hfind, hc, hex, hs, hpy, hopt, hbad, hcv] at hr
    · rintro ⟨poll, s, hfind, hc, hex, rfl, hs, hpy⟩
      simp [poll_detail_post, hfind, hc, hex, hs, hpy]
  · rintro poll hfind hc hex (rfl | rfl) <;>
      simp [poll_detail_post, hfind, hc, hex, chooseOptionResp]

/-- Witness for the amended C10: in `dbEx` (open poll 1, fresh user 2),
`option=abc` produces the escaped exception and an empty `option` produces
the choose-an-option redirect back to the poll page. -/
theorem poll_detail_option_field_handling_witness :
    (poll_detail_post dbEx dbEx 2 1 (some "abc") 0 false).2
      = VoteResponse.raisedValueError ∧
    poll_detail_post dbEx dbEx 2 1 (some "") 0 false = (dbEx, chooseOptionResp) :=
  ⟨(poll_detail_option_field_handling dbEx 2 1 (some "abc") 0 false).1.mpr
      ⟨⟨1, "Best color?", 0, none, true⟩, "abc", rfl, rfl, rfl, rfl, rfl, rfl⟩,
   (poll_detail_option_field_handling dbEx 2 1 (some "") 0 false).2
      ⟨1, "Best color?", 0, none, true⟩ rfl rfl rfl (Or.inr rfl)⟩

/-! ## C7: results aggregation -/

/-- Distributing a division-and-scale over a list sum. -/
lemma sum_map_div_mul (l : List Nat) (T : ℚ) :
    (l.map (fun v : Nat => (v : ℚ) / T * 100)).sum = ((l.sum : Nat) : ℚ) / T * 100 := by
  induction l with
  | nil => simp
  | cons a t ih =>
      rw [List.map_cons, List.sum_cons, ih, List.sum_cons]
      push_cast
      ring

/-- C7: `admin_results` computes `total` as the sum of the per-option vote
counts, each percentage as `count/total*100` when `total > 0` and `0` for
every option otherwise; consequently the percentages sum to exactly `100`
(in exact rational arithmetic) whenever `total > 0`, and are all `0` when
`total = 0`. -/
theorem admin_results_percentages (db : DB) (pid : Nat) :
    resultsTotal db pid = (resultsVotes db pid).sum ∧
    resultsPercentages db pid = (resultsVotes db pid).map
      (fun v : Nat => if 0 < resultsTotal db pid
        then (v : ℚ) / (resultsTotal db pid : ℚ) * 100 else 0) ∧
    (0 < resultsTotal db pid → (resultsPercentages db pid).sum = 100) ∧
    (resultsTotal db pid = 0 → ∀ q ∈ resultsPercentages db pid, q = 0) := by
  have htot : resultsTotal db pid = (resultsVotes db pid).sum := by
    by_cases h : (resultsVotes db pid).sum = 0 <;> simp [resultsTotal, h]
  refine ⟨htot, rfl, ?_, ?_⟩
  · intro hpos
    have hne : ((resultsTotal db pid : Nat) : ℚ) ≠ 0 := by
      exact_mod_cast Nat.pos_iff_ne_zero.mp hpos
    unfold resultsPercentages
    simp only [hpos, if_true]
    rw [sum_map_div_mul, ← htot, div_self hne, one_mul]
  · intro hzero
    intro q hq
    unfold resultsPercentages at hq
    rw [hzero] at hq
    simp at hq
    exact hq.2

/-- Witness for C7: in `dbEx`, poll 1 has counts `[1, 0]` and percentages
summing to `100`, while poll 2 has no votes and all-zero percentages. -/
theorem admin_results_percentages_witness :
    (resultsPercentages dbEx 1).sum = 100 ∧
    (∀ q ∈ resultsPercentages dbEx 2, q = 0) :=
  ⟨(admin_results_percentages dbEx 1).2.2.1 (by decide),
   (admin_results_percentages dbEx 2).2.2.2 (by decide)⟩

/-! ## C8: the two poll listings -/

/-- C8: the public listing - the handler's active-only query composed with
the template's expiry filtering, the latter modelled from the spec - shows
exactly the polls that are active and not expired at the current time, and
both it and the admin listing are ordered by creation time descending
(`Pairwise` with non-strict `≥`, since `ORDER BY` leaves ties unordered). -/
theorem listings_spec (db : DB) (now : Time) :
    (indexListing db now).Perm
      (db.polls.filter (fun p => p.active && !(isExpired p now))) ∧
    (indexListing db now).Pairwise (fun a b => b.created_at ≤ a.created_at) ∧
    (adminListing db).Perm db.polls ∧
    (adminListing db).Pairwise (fun a b => b.created_at ≤ a.created_at) := by
  have htrans : ∀ a b c : Poll,
      decide (b.created_at ≤ a.created_at) = true →
      decide (c.created_at ≤ b.created_at) = true →
      decide (c.created_at ≤ a.created_at) = true := by
    intro a b c hab hbc
    exact decide_eq_true (le_trans (of_decide_eq_true hbc) (of_decide_eq_true hab))
  have htotal : ∀ a b : Poll,
      (decide (b.created_at ≤ a.created_at) || decide (a.created_at ≤ b.created_at)) = true := by
    intro a b
    rcases le_total b.created_at a.created_at with h | h <;> simp [h]
  have hadmin_sorted : (adminListing db).Pairwise (fun a b => b.created_at ≤ a.created_at) := by
    have := List.sorted_mergeSort htrans htotal db.polls
    exact this.imp (fun h => of_decide_eq_true h)
  have hidx_sorted : (sortByCreatedDesc (db.polls.filter (fun p => p.active))).Pairwise
      (fun a b => b.created_at ≤ a.created_at) := by
    have := List.sorted_mergeSort htrans htotal (db.polls.filter (fun p => p.active))
    exact this.imp (fun h => of_decide_eq_true h)
  refine ⟨?_, ?_, List.mergeSort_perm db.polls _, hadmin_sorted⟩
  · have h1 : (sortByCreatedDesc (db.polls.filter (fun p => p.active))).Perm
        (db.polls.filter (fun p => p.active)) :=
      List.mergeSort_perm _ _
    have h2 := h1.filter (fun p => !(isExpired p now))
    have h3 : (db.polls.filter (fun p => p.active)).filter (fun p => !(isExpired p now))
        = db.polls.filter (fun p => p.active && !(isExpired p now)) := by
      rw [List.filter_filter]
      exact List.filter_congr (fun p _ => by rw [Bool.and_comm])
    rw [h3] at h2
    exact h2
  · exact List.Pairwise.sublist (List.filter_sublist _) hidx_sorted

/-! ## C9: CSV export -/

/-- C9: for an existing poll, `export_poll_csv` yields the header row
followed by exactly one row per option of the poll, in `poll.options`
order - the very order `admin_results` aggregates in - and the votes cell
of each row renders the same per-option count `admin_results` computes. -/
theorem export_csv_spec (db : DB) (pid : Nat) (poll : Poll)
    (hfind : getPoll db pid = some poll) :
    export_poll_csv db pid =
      some (["poll_id", "poll_question", "option_id", "option_text", "votes"] ::
        (pollOptions db pid).map
          (fun opt => [toString poll.id, poll.question, toString opt.id, opt.text,
                       toString (countVotesForOption db opt.id)])) ∧
    ((pollOptions db pid).map (fun opt => toString (countVotesForOption db opt.id)))
      = (resultsVotes db pid).map (fun n => toString n) := by
  have hid : poll.id = pid := by
    have := List.find?_some hfind
    simpa using this
  constructor
  · simp [export_poll_csv, hfind, hid]
  · unfold resultsVotes
    rw [List.map_map]
    rfl

/-- Witness for C9: the export for poll 1 of `dbEx`, fully evaluated. -/
theorem export_csv_spec_witness :
    export_poll_csv dbEx 1 =
      some [["poll_id", "poll_question", "option_id", "option_text", "votes"],
            ["1", "Best color?", "1", "Red", "1"],
            ["1", "Best color?", "2", "Blue", "0"]] :=
  ((export_csv_spec dbEx 1 ⟨1, "Best color?", 0, none, true⟩ rfl).1).trans (by decide)

/-! ## Lemmas about poll creation -/

lemma addOptions_fields (ts : List String) : ∀ (db : DB) (pid : Nat),
    (addOptions db pid ts).users = db.users ∧
    (addOptions db pid ts).polls = db.polls ∧
    (addOptions db pid ts).votes = db.votes ∧
    (addOptions db pid ts).nextPollId = db.nextPollId ∧
    (addOptions db pid ts).nextVoteId = db.nextVoteId ∧
    (addOptions db pid ts).nextUserId = db.nextUserId := by
  induction ts with
  | nil => intro db pid; exact ⟨rfl, rfl, rfl, rfl, rfl, rfl⟩
  | cons t rest ih => intro db pid; exact ih _ _

lemma addOptions_options (ts : List String) : ∀ (db : DB) (pid : Nat),
    (addOptions db pid ts).options = db.options ++ optionRows db.nextOptionId pid ts := by
  induction ts with
  | nil => intro db pid; simp [addOptions, optionRows]
  | cons t rest ih =>
      intro db pid
      rw [show addOptions db pid (t :: rest)
            = addOptions { db with options := db.options ++ [⟨db.nextOptionId, t, pid⟩],
                                   nextOptionId := db.nextOptionId + 1 } pid rest from rfl]
      rw [ih]
      simp [optionRows]

lemma addOptions_nextOptionId (ts : List String) : ∀ (db : DB) (pid : Nat),
    (addOptions db pid ts).nextOptionId = db.nextOptionId + ts.length := by
  induction ts with
  | nil => intro db pid; rfl
  | cons t rest ih =>
      intro db pid
      rw [show addOptions db pid (t :: rest)
            = addOptions { db with options := db.options ++ [⟨db.nextOptionId, t, pid⟩],
                                   nextOptionId := db.nextOptionId + 1 } pid rest from rfl]
      rw [ih]
      simp
      omega

lemma optionRows_map_text (ts : List String) : ∀ (start pid : Nat),
    (optionRows start pid ts).map PollOption.text = ts := by
  induction ts with
  | nil => intro start pid; rfl
  | cons t rest ih => intro start pid; simp [optionRows, ih]

lemma optionRows_poll_id (ts : List String) : ∀ (start pid : Nat) (o : PollOption),
    o ∈ optionRows start pid ts → o.poll_id = pid := by
  induction ts with
  | nil => intro start pid o h; simp [optionRows] at h
  | cons t rest ih =>
      intro start pid o h
      simp only [optionRows, List.mem_cons] at h
      rcases h with rfl | h
      · rfl
      · exact ih _ _ _ h

lemma optionRows_map_id (ts : List String) : ∀ (start pid : Nat),
    (optionRows start pid ts).map PollOption.id = List.range' start ts.length := by
  induction ts with
  | nil => intro start pid; rfl
  | cons t rest ih => intro start pid; simp [optionRows, List.range', ih]

/-- The net effect of a successful creation: the one poll row is appended,
its `poll.options` are exactly the submitted texts (freshness of the poll
id keeps older options out), and the other tables are untouched. -/
lemma insertPollWithOptions_spec (db : DB) (q : String) (e : Option Time)
    (a : Bool) (now : Time) (ts : List String)
    (hfresh : ∀ o ∈ db.options, o.poll_id < db.nextPollId) :
    (insertPollWithOptions db q e a now ts).polls
      = db.polls ++ [⟨db.nextPollId, q, now, e, a⟩] ∧
    (pollOptions (insertPollWithOptions db q e a now ts) db.nextPollId).map PollOption.text
      = ts ∧
    (insertPollWithOptions db q e a now ts).votes = db.votes ∧
    (insertPollWithOptions db q e a now ts).users = db.users := by
  unfold insertPollWithOptions
  refine ⟨?_, ?_, ?_, ?_⟩
  · rw [(addOptions_fields ts _ _).2.1]
  · unfold pollOptions
    rw [addOptions_options]
    rw [List.filter_append]
    have h1 : db.options.filter (fun o => o.poll_id == db.nextPollId) = [] := by
      rw [List.filter_eq_nil_iff]
      intro o ho
      have := hfresh o ho
      simp only [beq_iff_eq]
      omega
    have h2 : (optionRows db.nextOptionId db.nextPollId ts).filter
        (fun o => o.poll_id == db.nextPollId) = optionRows db.nextOptionId db.nextPollId ts := by
      rw [List.filter_eq_self]
      intro o ho
      have := optionRows_poll_id ts _ _ o ho
      simp [this]
    rw [h1, h2, List.nil_append, optionRows_map_text]
  · rw [(addOptions_fields ts _ _).2.2.1]
  · rw [(addOptions_fields ts _ _).1]

/-! ## C6: poll-creation validation -/

/-- C6: a POST of `create_poll` succeeds (the "Poll created." redirect) if
and only if the trimmed question is non-empty, at least two submitted
option texts are non-empty after trimming, and the expiry field - when
supplied non-blank - parses as an ISO-8601 date-time.  On any validation
failure the database is returned unchanged; on success one poll row is
appended whose `poll.options` carry exactly the trimmed non-empty option
texts, and the other tables are untouched.  (`hfresh` is the autoincrement
freshness of the poll id, which holds in every reachable state.) -/
theorem create_poll_validation (parseIso : String → Option Time) (db : DB)
    (qf : Option String) (optsf : List String) (ef af : Option String) (now : Time)
    (hfresh : ∀ o ∈ db.options, o.poll_id < db.nextPollId) :
    ((create_poll_post parseIso db qf optsf ef af now).2 = pollCreatedResp ↔
      (pyStrip (qf.getD "") ≠ "" ∧
       2 ≤ ((optsf.map (fun o => pyStrip o)).filter (fun o => !(o == ""))).length ∧
       (pyStrip (ef.getD "") ≠ "" → (parseIso (pyStrip (ef.getD ""))).isSome))) ∧
    ((create_poll_post parseIso db qf optsf ef af now).2 ≠ pollCreatedResp →
      (create_poll_post parseIso db qf optsf ef af now).1 = db) ∧
    ((create_poll_post parseIso db qf optsf ef af now).2 = pollCreatedResp →
      ∃ e,
        (create_poll_post parseIso db qf optsf ef af now).1.polls
          = db.polls ++ [⟨db.nextPollId, pyStrip (qf.getD ""), now, e,
                          (af.getD "on") == "on"⟩] ∧
        (pollOptions (create_poll_post parseIso db qf optsf ef af now).1
            db.nextPollId).map PollOption.text
          = (optsf.map (fun o => pyStrip o)).filter (fun o => !(o == "")) ∧
        (create_poll_post parseIso db qf optsf ef af now).1.votes = db.votes ∧
        (create_poll_post parseIso db qf optsf ef af now).1.users = db.users) := by
  have hne1 : CreateResponse.redirectCreate "Provide a question and at least two options."
      ≠ pollCreatedResp := by decide
  have hne2 : CreateResponse.redirectCreate "Invalid expiry format. Use the datetime picker."
      ≠ pollCreatedResp := by decide
  by_cases hval : (pyStrip (qf.getD "") == ""
      || decide (((optsf.map (fun o => pyStrip o)).filter (fun o => !(o == ""))).length < 2)) = true
  · have hr : create_poll_post parseIso db qf optsf ef af now
        = (db, .redirectCreate "Provide a question and at least two options.") := by
      simp only [create_poll_post]
      rw [if_pos hval]
    rw [hr]
    refine ⟨?_, fun _ => rfl, fun h => absurd h hne1⟩
    constructor
    · intro h; exact absurd h hne1
    · rintro ⟨hq, hlen, _⟩
      exfalso
      rw [Bool.or_eq_true] at hval
      rcases hval with h | h
      · exact hq (by simpa using h)
      · rw [decide_eq_true_eq] at h; omega
  · have hcond1 := hval
    rw [Bool.or_eq_true, not_or] at hval
    obtain ⟨hq0, hlen0⟩ := hval
    have hq0' : (pyStrip (qf.getD "") == "") = false := by
      simpa using hq0
    have hqne : pyStrip (qf.getD "") ≠ "" := by simpa using hq0'
    have hlen : 2 ≤ ((optsf.map (fun o => pyStrip o)).filter (fun o => !(o == ""))).length := by
      rcases Nat.lt_or_ge (((optsf.map (fun o => pyStrip o)).filter (fun o => !(o == ""))).length) 2
        with h | h
      · exact absurd (decide_eq_true h) hlen0
      · exact h
    by_cases her : (pyStrip (ef.getD "") == "") = true
    · have hr : create_poll_post parseIso db qf optsf ef af now
          = (insertPollWithOptions db (pyStrip (qf.getD "")) none
              ((af.getD "on") == "on") now
              ((optsf.map (fun o => pyStrip o)).filter (fun o => !(o == ""))),
             pollCreatedResp) := by
        simp only [create_poll_post]
        rw [if_neg hcond1, if_pos her]
        rfl
      rw [hr]
      obtain ⟨hp, ho, hv, hu⟩ :=
        insertPollWithOptions_spec db (pyStrip (qf.getD "")) none
          ((af.getD "on") == "on") now
          ((optsf.map (fun o => pyStrip o)).filter (fun o => !(o == ""))) hfresh
      refine ⟨?_, fun h => absurd rfl h, fun _ => ⟨none, hp, ho, hv, hu⟩⟩
      exact iff_of_true rfl ⟨hqne, hlen, fun hcon => absurd (eq_of_beq her) hcon⟩
    · have herne : pyStrip (ef.getD "") ≠ "" := by
        intro h
        exact her (by simp [h])
      cases hpi : parseIso (pyStrip (ef.getD "")) with
      | none =>
        have hr : create_poll_post parseIso db qf optsf ef af now
            = (db, .redirectCreate "Invalid expiry format. Use the datetime picker.") := by
          simp only [create_poll_post]
          rw [if_neg hcond1, if_neg her, hpi]
        rw [hr]
        refine ⟨?_, fun _ => rfl, fun h => absurd h hne2⟩
        constructor
        · intro h; exact absurd h hne2
        · rintro ⟨_, _, hsome⟩
          have := hsome herne
          simp at this
      | some e =>
        have hr : create_poll_post parseIso db qf optsf ef af now
            = (insertPollWithOptions db (pyStrip (qf.getD "")) (some e)
                ((af.getD "on") == "on") now
                ((optsf.map (fun o => pyStrip o)).filter (fun o => !(o == ""))),
               pollCreatedResp) := by
          simp only [create_poll_post]
          rw [if_neg hcond1, if_neg her, hpi]
          rfl
        rw [hr]
        obtain ⟨hp, ho, hv, hu⟩ :=
          insertPollWithOptions_spec db (pyStrip (qf.getD "")) (some e)
            ((af.getD "on") == "on") now
            ((optsf.map (fun o => pyStrip o)).filter (fun o => !(o == ""))) hfresh
        refine ⟨?_, fun h => absurd rfl h, fun _ => ⟨some e, hp, ho, hv, hu⟩⟩
        exact iff_of_true rfl ⟨hqne, hlen, fun _ => rfl⟩

/-- Witness for C6: in `dbEx`, a request with question `" Q "`, options
`["a", " ", "b"]` and a parsable expiry succeeds, while a one-option
request fails validation and changes nothing. -/
theorem create_poll_validation_witness :
    (create_poll_post (fun _ => some 99) dbEx (some " Q ") ["a", " ", "b"]
        (some "2020") (some "on") 7).2 = pollCreatedResp ∧
    (create_poll_post (fun _ => none) dbEx (some "Q") ["a"] none none 7).1 = dbEx :=
  ⟨(create_poll_validation (fun _ => some 99) dbEx (some " Q ") ["a", " ", "b"]
        (some "2020") (some "on") 7 (by decide)).1.mpr
      ⟨by decide, by decide, fun _ => rfl⟩,
   (create_poll_validation (fun _ => none) dbEx (some "Q") ["a"] none none 7
        (by decide)).2.1 (by decide)⟩

/-! ## Preservation of the relational invariants -/

/-- `Inv` only looks at votes, options, poll ids and two counters, so it
transfers across any state change that preserves those. -/
lemma inv_of_fields {db db' : DB} (h : Inv db)
    (hv : db'.votes = db.votes) (ho : db'.options = db.options)
    (hno : db'.nextOptionId = db.nextOptionId) (hnp : db'.nextPollId = db.nextPollId)
    (hpoll : ∀ q ∈ db'.polls, ∃ r ∈ db.polls, q.id = r.id) : Inv db' := by
  constructor
  · intro u p
    unfold votesBy
    rw [hv]
    exact h.uniq u p
  · intro v hvv
    rw [hv] at hvv
    rw [ho]
    exact h.belongs v hvv
  · rw [ho]; exact h.optNodup
  · intro o ho'
    rw [ho] at ho'
    rw [hno]
    exact h.optLt o ho'
  · intro o ho'
    rw [ho] at ho'
    rw [hnp]
    exact h.optPollLt o ho'
  · intro q hq
    obtain ⟨r, hr, hid⟩ := hpoll q hq
    rw [hnp, hid]
    exact h.pollLt r hr

lemma register_post_fields (db : DB) (u p hashed : String) :
    (register_post db u p hashed).votes = db.votes ∧
    (register_post db u p hashed).options = db.options ∧
    (register_post db u p hashed).polls = db.polls ∧
    (register_post db u p hashed).nextOptionId = db.nextOptionId ∧
    (register_post db u p hashed).nextPollId = db.nextPollId := by
  simp only [register_post]
  split
  · exact ⟨rfl, rfl, rfl, rfl, rfl⟩
  · split
    · exact ⟨rfl, rfl, rfl, rfl, rfl⟩
    · exact ⟨rfl, rfl, rfl, rfl, rfl⟩

lemma inv_register {db : DB} (h : Inv db) (u p hashed : String) :
    Inv (register_post db u p hashed) := by
  obtain ⟨hv, ho, hp, hno, hnp⟩ := register_post_fields db u p hashed
  exact inv_of_fields h hv ho hno hnp (fun q hq => ⟨q, hp ▸ hq, rfl⟩)

lemma inv_toggle {db : DB} (h : Inv db) (pid : Nat) :
    Inv (toggle_poll db pid) := by
  refine inv_of_fields h rfl rfl rfl rfl ?_
  intro q hq
  rcases List.mem_map.mp hq with ⟨r, hr, rfl⟩
  refine ⟨r, hr, ?_⟩
  by_cases hc : (r.id == pid) = true <;> simp [hc]

lemma inv_delete {db : DB} (h : Inv db) (pid : Nat) :
    Inv (delete_poll db pid) := by
  unfold delete_poll
  split
  case isFalse => exact h
  case isTrue =>
    constructor
    · intro u p
      unfold votesBy
      have hsub :
          ((db.votes.filter (fun v =>
              !((db.options.filter (fun o => o.poll_id == pid)).any
                (fun o => o.id == v.option_id)))).filter
            (fun v => v.user_id == u && v.poll_id == p)).Sublist
          (db.votes.filter (fun v => v.user_id == u && v.poll_id == p)) :=
        (List.filter_sublist _).filter _
      exact le_trans hsub.length_le (h.uniq u p)
    · intro v hvv
      have hvv' : v ∈ db.votes.filter
          (fun w => !((db.options.filter (fun o => o.poll_id == pid)).any
            (fun o => o.id == w.option_id))) := hvv
      have hv0 : v ∈ db.votes := List.mem_of_mem_filter hvv'
      have hkeep : (!((db.options.filter (fun o => o.poll_id == pid)).any
          (fun o => o.id == v.option_id))) = true := (List.mem_filter.mp hvv').2
      obtain ⟨o, ho, hoid, hopid⟩ := h.belongs v hv0
      refine ⟨o, List.mem_filter.mpr ⟨ho, ?_⟩, hoid, hopid⟩
      rw [Bool.not_eq_true', List.any_eq_false] at hkeep
      by_cases hop : (o.poll_id == pid) = true
      · exfalso
        exact hkeep o (List.mem_filter.mpr ⟨ho, hop⟩) (by simp [hoid])
      · simpa using hop
    · exact h.optNodup.sublist ((List.filter_sublist _).map _)
    · intro o ho'
      exact h.optLt o (List.mem_of_mem_filter ho')
    · intro o ho'
      exact h.optPollLt o (List.mem_of_mem_filter ho')
    · intro q hq
      exact h.pollLt q (List.mem_of_mem_filter hq)

lemma optionRows_id_bounds (ts : List String) (start pid : Nat) (o : PollOption)
    (ho : o ∈ optionRows start pid ts) : start ≤ o.id ∧ o.id < start + ts.length := by
  have hmem : o.id ∈ (optionRows start pid ts).map PollOption.id :=
    List.mem_map_of_mem _ ho
  rw [optionRows_map_id] at hmem
  exact List.mem_range'_1.mp hmem

lemma inv_insertPoll {db : DB} (h : Inv db) (q : String) (e : Option Time)
    (a : Bool) (now : Time) (ts : List String) :
    Inv (insertPollWithOptions db q e a now ts) := by
  obtain ⟨hu, hp, hv, hnp, _, _⟩ := addOptions_fields ts
    { db with polls := db.polls ++ [⟨db.nextPollId, q, now, e, a⟩],
              nextPollId := db.nextPollId + 1 } db.nextPollId
  have hopts := addOptions_options ts
    { db with polls := db.polls ++ [⟨db.nextPollId, q, now, e, a⟩],
              nextPollId := db.nextPollId + 1 } db.nextPollId
  have hnid := addOptions_nextOptionId ts
    { db with polls := db.polls ++ [⟨db.nextPollId, q, now, e, a⟩],
              nextPollId := db.nextPollId + 1 } db.nextPollId
  have hv' : (insertPollWithOptions db q e a now ts).votes = db.votes := hv
  have hp' : (insertPollWithOptions db q e a now ts).polls
      = db.polls ++ [⟨db.nextPollId, q, now, e, a⟩] := hp
  have hopts' : (insertPollWithOptions db q e a now ts).options
      = db.options ++ optionRows db.nextOptionId db.nextPollId ts := hopts
  have hnp' : (insertPollWithOptions db q e a now ts).nextPollId
      = db.nextPollId + 1 := hnp
  have hnid' : (insertPollWithOptions db q e a now ts).nextOptionId
      = db.nextOptionId + ts.length := hnid
  constructor
  · intro u' p'
    unfold votesBy
    rw [hv']
    exact h.uniq u' p'
  · intro v hvv
    rw [hv'] at hvv
    obtain ⟨o, ho, h1, h2⟩ := h.belongs v hvv
    refine ⟨o, ?_, h1, h2⟩
    rw [hopts']
    exact List.mem_append_left _ ho
  · rw [hopts', List.map_append, List.nodup_append]
    refine ⟨h.optNodup, ?_, ?_⟩
    · rw [optionRows_map_id]
      exact List.nodup_range' _ _
    · intro x hx hx'
      rw [optionRows_map_id] at hx'
      obtain ⟨o, ho, rfl⟩ := List.mem_map.mp hx
      have hlt := h.optLt o ho
      have hge := (List.mem_range'_1.mp hx').1
      omega
  · intro o ho'
    rw [hopts'] at ho'
    rw [hnid']
    rcases List.mem_append.mp ho' with h1 | h1
    · have := h.optLt o h1; omega
    · have := optionRows_id_bounds ts _ _ o h1; omega
  · intro o ho'
    rw [hopts'] at ho'
    rw [hnp']
    rcases List.mem_append.mp ho' with h1 | h1
    · have := h.optPollLt o h1; omega
    · have := optionRows_poll_id ts _ _ o h1; omega
  · intro pl hpl
    rw [hp'] at hpl
    rw [hnp']
    rcases List.mem_append.mp hpl with h1 | h1
    · have := h.pollLt pl h1; omega
    · have : pl = ⟨db.nextPollId, q, now, e, a⟩ := by simpa using h1
      rw [this]
      exact Nat.lt_succ_self db.nextPollId

/-- The state a creation request leaves behind: unchanged, or one poll with
its options inserted. -/
lemma create_poll_state (parseIso : String → Option Time) (db : DB)
    (qf : Option String) (optsf : List String) (ef af : Option String) (now : Time) :
    (create_poll_post parseIso db qf optsf ef af now).1 = db ∨
    ∃ q e a ts, (create_poll_post parseIso db qf optsf ef af now).1
      = insertPollWithOptions db q e a now ts := by
  simp only [create_poll_post]
  split
  · left; rfl
  · split
    · right; exact ⟨_, _, _, _, rfl⟩
    · split
      · left; rfl
      · right; exact ⟨_, _, _, _, rfl⟩

lemma inv_create {db : DB} (h : Inv db) (parseIso : String → Option Time)
    (qf : Option String) (optsf : List String) (ef af : Option String) (now : Time) :
    Inv (create_poll_post parseIso db qf optsf ef af now).1 := by
  rcases create_poll_state parseIso db qf optsf ef af now with h1 | ⟨q, e, a, ts, h1⟩
  · rw [h1]; exact h
  · rw [h1]; exact inv_insertPoll h q e a now ts

lemma inv_vote {db : DB} (h : Inv db) (staleVotes : List Vote) (uid pid : Nat)
    (field : Option String) (now : Time) (sf : Bool) :
    Inv (poll_detail_post { db with votes := staleVotes } db uid pid field now sf).1 := by
  rcases poll_detail_post_shape { db with votes := staleVotes } db uid pid field now sf with
    ⟨h1, _⟩ | ⟨poll, opt, hfind, hmem, hpeq, hv, heq⟩
  · rw [h1]; exact h
  · have h1 : (poll_detail_post { db with votes := staleVotes } db uid pid field now sf).1
        = { db with votes := db.votes ++ [⟨db.nextVoteId, uid, poll.id, opt.id, now⟩],
                    nextVoteId := db.nextVoteId + 1 } := by rw [heq]
    rw [h1]
    have hmem' : opt ∈ db.options := hmem
    constructor
    · intro u p
      unfold votesBy
      show (List.filter (fun v => v.user_id == u && v.poll_id == p)
          (db.votes ++ [⟨db.nextVoteId, uid, poll.id, opt.id, now⟩])).length ≤ 1
      rw [List.filter_append]
      by_cases hup : u = uid ∧ p = poll.id
      · have h0 : db.votes.filter (fun v => v.user_id == u && v.poll_id == p) = [] := by
          rw [List.filter_eq_nil_iff]
          intro w hw
          unfold hasVote at hv
          rw [List.any_eq_false] at hv
          rw [hup.1, hup.2]
          exact hv w hw
        rw [h0]
        simp [hup.1, hup.2]
      · have hsingle : List.filter (fun v => v.user_id == u && v.poll_id == p)
            [(⟨db.nextVoteId, uid, poll.id, opt.id, now⟩ : Vote)] = [] := by
          simp only [List.filter_cons, List.filter_nil]
          rw [if_neg]
          intro hcontra
          simp only [Bool.and_eq_true, beq_iff_eq] at hcontra
          exact hup ⟨hcontra.1.symm, hcontra.2.symm⟩
        rw [hsingle, List.append_nil]
        exact h.uniq u p
    · intro v hvv
      have hvv' : v ∈ db.votes ++ [(⟨db.nextVoteId, uid, poll.id, opt.id, now⟩ : Vote)] := hvv
      rcases List.mem_append.mp hvv' with h2 | h2
      · obtain ⟨o, ho, e1, e2⟩ := h.belongs v h2
        exact ⟨o, ho, e1, e2⟩
      · have : v = ⟨db.nextVoteId, uid, poll.id, opt.id, now⟩ := by simpa using h2
        rw [this]
        exact ⟨opt, hmem', rfl, hpeq⟩
    · exact h.optNodup
    · exact h.optLt
    · exact h.optPollLt
    · exact h.pollLt

/-- Every handler invocation preserves the relational invariants. -/
lemma inv_step {db db' : DB} (h : Inv db) (hs : Step db db') : Inv db' := by
  cases hs with
  | register u p hashed => exact inv_register h u p hashed
  | create parseIso qf optsf ef af now => exact inv_create h parseIso qf optsf ef af now
  | toggle pid => exact inv_toggle h pid
  | delete pid => exact inv_delete h pid
  | vote staleVotes uid pid field now sf => exact inv_vote h staleVotes uid pid field now sf

lemma inv_db0 : Inv db0 := by
  refine ⟨?_, ?_, ?_, ?_, ?_, ?_⟩
  · intro u p; exact Nat.zero_le 1
  · intro v hv; simp [db0] at hv
  · simp [db0]
  · intro o ho; simp [db0] at ho
  · intro o ho; simp [db0] at ho
  · intro p hp; simp [db0] at hp

/-- The relational invariants hold in every reachable database state. -/
lemma inv_reachable {db : DB} (h : Reachable db) : Inv db := by
  unfold Reachable at h
  induction h with
  | refl => exact inv_db0
  | tail _ hstep ih => exact inv_step ih hstep

/-! ## Counting votes by poll versus by option -/

lemma sum_map_add_nat {α : Type} (l : List α) (f g : α → Nat) :
    (l.map (fun x => f x + g x)).sum = (l.map f).sum + (l.map g).sum := by
  induction l with
  | nil => rfl
  | cons a t ih =>
      simp only [List.map_cons, List.sum_cons, ih]
      omega

lemma sum_indicator (l : List PollOption) (p : PollOption → Bool) :
    (l.map (fun o => if p o = true then 1 else 0)).sum = l.countP p := by
  induction l with
  | nil => rfl
  | cons o t ih =>
      rw [List.map_cons, List.sum_cons, ih, List.countP_cons]
      by_cases h : p o = true
      · simp only [h, if_true]
        omega
      · simp only [h, if_false]
        omega

/-- With globally distinct option ids, an id is matched by exactly one
option when present and none otherwise. -/
lemma countP_nodup_id (opts : List PollOption) (x : Nat)
    (hnd : (opts.map PollOption.id).Nodup) :
    opts.countP (fun o => x == o.id)
      = if opts.any (fun o => o.id == x) then 1 else 0 := by
  induction opts with
  | nil => rfl
  | cons o rest ih =>
      rw [List.map_cons, List.nodup_cons] at hnd
      obtain ⟨hnotin, hnd'⟩ := hnd
      rw [List.countP_cons, ih hnd', List.any_cons]
      by_cases hx : x = o.id
      · have hany : rest.any (fun o' => o'.id == x) = false := by
          rw [List.any_eq_false]
          intro o' ho' hbeq
          apply hnotin
          rw [← hx, ← eq_of_beq hbeq]
          exact List.mem_map_of_mem _ ho'
        rw [hany]
        simp [hx]
      · have hb1 : (x == o.id) = false := by simpa using hx
        have hb2 : (o.id == x) = false := by
          simpa using fun hh => hx hh.symm
        rw [hb1, hb2, Bool.false_or]
        simp

/-- Partition counting: when every vote on the poll matches exactly one of
the listed options and votes on other polls match none, counting votes by
poll equals summing the per-option counts. -/
lemma count_partition (votes : List Vote) (opts : List PollOption) (pid : Nat)
    (hnd : (opts.map PollOption.id).Nodup)
    (hin : ∀ v ∈ votes, v.poll_id = pid →
      opts.any (fun o => o.id == v.option_id) = true)
    (hout : ∀ v ∈ votes, v.poll_id ≠ pid →
      opts.any (fun o => o.id == v.option_id) = false) :
    (votes.filter (fun v => v.poll_id == pid)).length
      = (opts.map (fun o => (votes.filter (fun w => w.option_id == o.id)).length)).sum := by
  induction votes with
  | nil => simp
  | cons v vs ih =>
      have hin' : ∀ w ∈ vs, w.poll_id = pid →
          opts.any (fun o => o.id == w.option_id) = true :=
        fun w hw => hin w (List.mem_cons_of_mem _ hw)
      have hout' : ∀ w ∈ vs, w.poll_id ≠ pid →
          opts.any (fun o => o.id == w.option_id) = false :=
        fun w hw => hout w (List.mem_cons_of_mem _ hw)
      have hsplit : ∀ o : PollOption,
          ((v :: vs).filter (fun w => w.option_id == o.id)).length
            = (if (v.option_id == o.id) = true then 1 else 0)
              + (vs.filter (fun w => w.option_id == o.id)).length := by
        intro o
        rw [List.filter_cons]
        by_cases hh : (v.option_id == o.id) = true
        · rw [if_pos hh, if_pos hh, List.length_cons]
          omega
        · rw [if_neg hh, if_neg hh]
          omega
      have hmapeq : opts.map (fun o => ((v :: vs).filter (fun w => w.option_id == o.id)).length)
          = opts.map (fun o => (if (v.option_id == o.id) = true then 1 else 0)
              + (vs.filter (fun w => w.option_id == o.id)).length) :=
        List.map_congr_left (fun o _ => hsplit o)
      rw [hmapeq, sum_map_add_nat, sum_indicator, List.filter_cons]
      by_cases hv : (v.poll_id == pid) = true
      · have hpv : v.poll_id = pid := by simpa using hv
        have h1 : opts.countP (fun o => v.option_id == o.id) = 1 := by
          rw [countP_nodup_id opts v.option_id hnd,
              hin v (List.mem_cons_self v vs) hpv]
          rfl
        rw [if_pos hv, List.length_cons, ih hin' hout', h1]
        omega
      · have hpv : v.poll_id ≠ pid := by simpa using hv
        have h0 : opts.countP (fun o => v.option_id == o.id) = 0 := by
          rw [countP_nodup_id opts v.option_id hnd,
              hout v (List.mem_cons_self v vs) hpv]
          rfl
        rw [if_neg hv, ih hin' hout', h0]
        omega

/-! ## C1: one vote per user per poll, also under races -/

/-- C1: in every reachable state there is at most one vote per
`(user, poll)` pair - including states produced by interleaved duplicate
attempts, since the `vote` step lets the handler's pre-check read an
arbitrarily stale vote table while `commitVote` enforces `uix_user_poll`
against the committed state; and whenever a request passes all pre-checks
against its (possibly stale) snapshot but the committed state already
holds a vote by that user on that poll, the constraint violation is caught
and surfaced as the handled "Could not record vote. You may have already
voted." duplicate-vote redirect - never as an escaped storage exception -
with the state unchanged. -/
theorem vote_uniqueness :
    (∀ db, Reachable db → ∀ u p, votesBy db u p ≤ 1) ∧
    (∀ (staleVotes : List Vote) (dbc : DB) (uid pid : Nat) (s : String) (i : Int)
        (opt : PollOption) (now : Time) (sf : Bool) (poll : Poll),
      getPoll dbc pid = some poll →
      (isExpired poll now || !poll.active) = false →
      hasVote { dbc with votes := staleVotes } uid poll.id = false →
      pyInt s = some i →
      getOptionByInt dbc i = some opt →
      (opt.poll_id != poll.id) = false →
      hasVote dbc uid poll.id = true →
      poll_detail_post { dbc with votes := staleVotes } dbc uid pid (some s) now sf
        = (dbc, commitFailResp)) := by
  constructor
  · intro db h u p
    exact (inv_reachable h).uniq u p
  · intro staleVotes dbc uid pid s i opt now sf poll hfind hopen hstale hpy hopt hbad hdup
    have hfind' : getPoll { dbc with votes := staleVotes } pid = some poll := hfind
    have hopt' : getOptionByInt { dbc with votes := staleVotes } i = some opt := hopt
    have hs : (s == "") = false := by
      by_cases hcs : s = ""
      · subst hcs
        rw [show pyInt "" = none from rfl] at hpy
        simp at hpy
      · simpa using hcs
    simp [poll_detail_post, hfind', hopen, hstale, hs, hpy, hopt', hbad, commitVote,
          hdup, commitFailResp]

/-- Witness for C1: a state reached by creating a poll and casting one vote
satisfies the bound, and in `dbEx` a race - the pre-check sees no votes
while the committed state already has user 1's vote on poll 1 - ends in
the handled duplicate message with the state unchanged. -/
theorem vote_uniqueness_witness :
    votesBy (poll_detail_post
        { (create_poll_post (fun _ => none) db0 (some "Q") ["a", "b"] none none 0).1
            with votes := [] }
        (create_poll_post (fun _ => none) db0 (some "Q") ["a", "b"] none none 0).1
        1 1 (some "1") 0 false).1 1 1 ≤ 1 ∧
    poll_detail_post { dbEx with votes := [] } dbEx 1 1 (some "2") 0 false
      = (dbEx, commitFailResp) :=
  ⟨vote_uniqueness.1 _
      (Relation.ReflTransGen.tail
        (Relation.ReflTransGen.single
          (Step.create db0 (fun _ => none) (some "Q") ["a", "b"] none none 0))
        (Step.vote _ [] 1 1 (some "1") 0 false)) 1 1,
   vote_uniqueness.2 [] dbEx 1 1 "2" 2 ⟨2, "Blue", 1⟩ 0 false
      ⟨1, "Best color?", 0, none, true⟩ rfl rfl rfl rfl rfl rfl rfl⟩

/-! ## C5: option/poll consistency and the counting corollary -/

/-- C5: in every reachable state, every vote's option is an existing option
of the vote's poll, and consequently, for every poll, the number of votes
referencing the poll equals the sum over the poll's options of the votes
referencing each option (the per-option counts being exactly the ones
`admin_results` computes). -/
theorem vote_option_consistency (db : DB) (h : Reachable db) :
    (∀ v ∈ db.votes, ∃ o ∈ db.options, o.id = v.option_id ∧ o.poll_id = v.poll_id) ∧
    (∀ p ∈ db.polls,
      (db.votes.filter (fun v => v.poll_id == p.id)).length
        = (resultsVotes db p.id).sum) := by
  have hi := inv_reachable h
  refine ⟨hi.belongs, ?_⟩
  intro p hp
  have hnd : ((pollOptions db p.id).map PollOption.id).Nodup :=
    hi.optNodup.sublist ((List.filter_sublist _).map _)
  have hin : ∀ v ∈ db.votes, v.poll_id = p.id →
      (pollOptions db p.id).any (fun o => o.id == v.option_id) = true := by
    intro v hv hvp
    obtain ⟨o, ho, h1, h2⟩ := hi.belongs v hv
    rw [List.any_eq_true]
    refine ⟨o, ?_, by simp [h1]⟩
    unfold pollOptions
    exact List.mem_filter.mpr ⟨ho, by simp [h2, hvp]⟩
  have hout : ∀ v ∈ db.votes, v.poll_id ≠ p.id →
      (pollOptions db p.id).any (fun o => o.id == v.option_id) = false := by
    intro v hv hvp
    rw [List.any_eq_false]
    intro o ho hbeq
    unfold pollOptions at ho
    have ho' : o ∈ db.options := List.mem_of_mem_filter ho
    have hop : (o.poll_id == p.id) = true := (List.mem_filter.mp ho).2
    obtain ⟨o', ho'', h1, h2⟩ := hi.belongs v hv
    have heq : o = o' :=
      List.inj_on_of_nodup_map hi.optNodup ho' ho'' (by rw [eq_of_beq hbeq, h1])
    rw [heq] at hop
    have : o'.poll_id = p.id := by simpa using hop
    exact hvp (by rw [← h2, this])
  have hcount := count_partition db.votes (pollOptions db p.id) p.id hnd hin hout
  rw [hcount]
  rfl

/-- Witness for C5: the state reached by creating poll "Q" with options
`["a", "b"]` and voting satisfies the counting identity for poll 1. -/
theorem vote_option_consistency_witness :
    ((poll_detail_post
        { (create_poll_post (fun _ => none) db0 (some "Q") ["a", "b"] none none 0).1
            with votes := [] }
        (create_poll_post (fun _ => none) db0 (some "Q") ["a", "b"] none none 0).1
        1 1 (some "1") 0 false).1.votes.filter (fun v => v.poll_id == (1 : Nat))).length
      = (resultsVotes (poll_detail_post
          { (create_poll_post (fun _ => none) db0 (some "Q") ["a", "b"] none none 0).1
              with votes := [] }
          (create_poll_post (fun _ => none) db0 (some "Q") ["a", "b"] none none 0).1
          1 1 (some "1") 0 false).1 1).sum :=
  (vote_option_consistency _
      (Relation.ReflTransGen.tail
        (Relation.ReflTransGen.single
          (Step.create db0 (fun _ => none) (some "Q") ["a", "b"] none none 0))
        (Step.vote _ [] 1 1 (some "1") 0 false))).2
    ⟨1, "Q", 0, none, true⟩ (by decide)

end PollSystem
